import Mathlib

/-!
# RCIO PWM driver (`rcio_pwm.c`): register synchronisation and arming

A shallow embedding of the sysfs store/show handlers, of the periodic
`rcio_pwm_update` and of the attach routine `rcio_pwm_probe`, together with
the properties of the driver specification that concern them.

Conventions of the embedding

* The file-scope variables `values`, `frequency`, `frequency_updated` and
  `armed` form the record `PwmState`, passed explicitly.
* `u16` objects are natural numbers; every assignment of an `int` to one goes
  through `u16`, the conversion modulo `2^16`.
* Everything the driver calls outside this file (the two register-port
  callbacks of `struct rcio_state`, `sysfs_create_group`, `kzalloc`,
  `pwmchip_add`) is a `Call`; the calls made so far, in order, are the `Trace`.
  The answers come from an `Env`, an arbitrary function of the calls made
  before and of the call itself, so an `Env` is an arbitrary deterministic
  behaviour of the register port and of the kernel; any single run against a
  port that answers at will is a run against some `Env`.
* `printk` lines are recorded in the trace as well; they take no answer.
* `kstrtoint` (from the kernel library) and the constants of `protocol.h` are
  parameters.
-/

namespace RcioPwm

/-! ## Constants -/

/-- The macro `RCIO_PWM_MAX_CHANNELS`. -/
def RCIO_PWM_MAX_CHANNELS : Nat := 8

/-- Linux errno `ENOMEM`. -/
def ENOMEM : Int := 12
/-- Linux errno `EBUSY`. -/
def EBUSY : Int := 16
/-- Linux errno `EINVAL`. -/
def EINVAL : Int := 22
/-- Linux errno `ERANGE`. -/
def ERANGE : Int := 34
/-- Linux errno `ENOTCONN`. -/
def ENOTCONN : Int := 107

/-- The register addresses and bit masks of `protocol.h` that the driver
names.  The header is not part of the translated file, so they are fields of a
parameter. -/
structure Protocol where
  PX4IO_PAGE_SETUP : Nat
  PX4IO_P_SETUP_ARMING : Nat
  PX4IO_P_SETUP_ARMING_IO_ARM_OK : Nat
  PX4IO_P_SETUP_ARMING_FMU_ARMED : Nat
  PX4IO_P_SETUP_ARMING_ALWAYS_PWM_ENABLE : Nat
  PX4IO_P_SETUP_PWM_DEFAULTRATE : Nat
  PX4IO_P_SETUP_FORCE_SAFETY_OFF : Nat
  PX4IO_FORCE_SAFETY_MAGIC : Nat
  PX4IO_PAGE_DIRECT_PWM : Nat
  deriving Repr, DecidableEq

/-! ## State -/

/-- The file-scope variables of `rcio_pwm.c`:
`static u16 values[RCIO_PWM_MAX_CHANNELS]`, `static u16 frequency`,
`static bool frequency_updated`, `static bool armed`. -/
structure PwmState where
  values : Fin 8 → Nat
  frequency : Nat
  frequency_updated : Bool
  armed : Bool

/-- The static initialisers: `values = {0}`, `frequency = 50`,
`frequency_updated = false`, `armed = false`. -/
def PwmState.init : PwmState :=
  { values := fun _ => 0, frequency := 50, frequency_updated := false, armed := false }

/-- Conversion of an `int` to `u16` on assignment: reduction modulo `2^16`. -/
def u16 (v : Int) : Nat := (v % 65536).toNat

/-- The eight entries of the array `values`, in index order, as handed to
`register_set` with `count = RCIO_PWM_MAX_CHANNELS`. -/
def PwmState.block (s : PwmState) : List Nat :=
  [s.values 0, s.values 1, s.values 2, s.values 3,
   s.values 4, s.values 5, s.values 6, s.values 7]

/-! ## Calls leaving the driver -/

/-- What the driver calls outside its own file, with the arguments it passes. -/
inductive Call where
  /-- Callback `state->register_set_byte(state, page, offset, value)`, with the
  arguments as the driver evaluates them (the parameter types are declared in
  `rcio.h`). -/
  | register_set_byte (page offset value : Nat)
  /-- Callback `state->register_set(state, page, offset, data, count)`. -/
  | register_set (page offset : Nat) (data : List Nat) (count : Nat)
  /-- Kernel `sysfs_create_group(rcio->object, &attr_group)`. -/
  | sysfs_create_group
  /-- Kernel `kzalloc(sizeof(struct rcio_pwm), GFP_KERNEL)`; answer `0` is `NULL`. -/
  | kzalloc
  /-- Kernel `pwmchip_add(&pwm->chip)` with `chip.npwm` as set before the call. -/
  | pwmchip_add (npwm : Nat)
  /-- Kernel log line (`printk`, `pr_err`, `pr_warn`), with its level. -/
  | printk (level msg : String)
  deriving Repr, DecidableEq

/-- The calls made so far, oldest first. -/
abbrev Trace := List Call

/-- A behaviour of the register port and of the kernel: the answer to a call,
given the calls made before it. -/
abbrev Env := Trace → Call → Int

/-- Make a call: take the answer of the environment and record the call. -/
def invoke (env : Env) (t : Trace) (c : Call) : Int × Trace :=
  (env t c, t ++ [c])

/-- Record a log line. -/
def log (t : Trace) (level msg : String) : Trace :=
  t ++ [Call.printk level msg]

/-- The kernel parser `kstrtoint(buf, 10, &value)`: its return code and the
value it stores on success.  It belongs to the kernel library, so it is a
parameter of the handlers. -/
abbrev Kstrtoint := String → Int × Int

/-! ## The sysfs handlers -/

/-- Handler `channel_store`: parse, then store into the slot named by the
attribute (`ch0` to `ch7`), and return `count`. -/
def channel_store (kstrtoint : Kstrtoint) (s : PwmState) (attr_name buf : String)
    (count : Nat) : Int × PwmState :=
  let ret := (kstrtoint buf).1
  let value := (kstrtoint buf).2
  if ret < 0 then (ret, s)
  else
    let s1 : PwmState :=
      if attr_name = "ch0" then { s with values := Function.update s.values 0 (u16 value) }
      else if attr_name = "ch1" then { s with values := Function.update s.values 1 (u16 value) }
      else if attr_name = "ch2" then { s with values := Function.update s.values 2 (u16 value) }
      else if attr_name = "ch3" then { s with values := Function.update s.values 3 (u16 value) }
      else if attr_name = "ch4" then { s with values := Function.update s.values 4 (u16 value) }
      else if attr_name = "ch5" then { s with values := Function.update s.values 5 (u16 value) }
      else if attr_name = "ch6" then { s with values := Function.update s.values 6 (u16 value) }
      else if attr_name = "ch7" then { s with values := Function.update s.values 7 (u16 value) }
      else s
    if ret < 0 then (-EBUSY, s1)
    else ((count : Int), s1)

/-- Handler `frequency_store`: parse, assign `frequency` and raise
`frequency_updated`, then test the stored `u16` against the range. -/
def frequency_store (kstrtoint : Kstrtoint) (s : PwmState) (buf : String)
    (count : Nat) : Int × PwmState :=
  let ret := (kstrtoint buf).1
  let value := (kstrtoint buf).2
  if ret < 0 then (ret, s)
  else
    let s1 : PwmState := { s with frequency := u16 value, frequency_updated := true }
    if (s1.frequency : Int) < 0 ∨ (s1.frequency : Int) > 1000 then (-EINVAL, s1)
    else ((count : Int), s1)

/-- Handler `armed_store`: parse, then `armed = (value > 0)`. -/
def armed_store (kstrtoint : Kstrtoint) (s : PwmState) (buf : String)
    (count : Nat) : Int × PwmState :=
  let ret := (kstrtoint buf).1
  let value := (kstrtoint buf).2
  if ret < 0 then (ret, s)
  else
    let s1 : PwmState := if value > 0 then { s with armed := true } else { s with armed := false }
    ((count : Int), s1)

/-- Handler `frequency_show`: the text `sprintf(buf, "%d\n", frequency)` writes
and the length it returns. -/
def frequency_show (s : PwmState) : Int × String :=
  let out := toString s.frequency ++ "\n"
  ((out.length : Int), out)

/-- Handler `armed_show`: the text `sprintf(buf, "%d\n", armed ? 1 : 0)` writes
and the length it returns. -/
def armed_show (s : PwmState) : Int × String :=
  let out := toString (if s.armed then 1 else 0 : Nat) ++ "\n"
  ((out.length : Int), out)

/-! ## Periodic synchronisation and attach -/

/-- Function `rcio_pwm_update`: push a pending frequency (logging a failure),
clear the flag, then write the block of channel values when armed.  The value
of `return true` is `1`. -/
def rcio_pwm_update (P : Protocol) (env : Env) (s : PwmState) (t : Trace) :
    Int × PwmState × Trace :=
  let p : PwmState × Trace :=
    if s.frequency_updated then
      let w := invoke env t
        (Call.register_set_byte P.PX4IO_PAGE_SETUP P.PX4IO_P_SETUP_PWM_DEFAULTRATE s.frequency)
      let t0 := if w.1 < 0 then log w.2 "KERN_INFO" "Frequency not set\n" else w.2
      ({ s with frequency_updated := false }, t0)
    else (s, t)
  if p.1.armed then
    let w := invoke env p.2
      (Call.register_set P.PX4IO_PAGE_DIRECT_PWM 0 p.1.block RCIO_PWM_MAX_CHANNELS)
    (w.1, p.1, w.2)
  else (1, p.1, p.2)

/-- Function `rcio_pwm_safety_off`: one byte write of the magic constant. -/
def rcio_pwm_safety_off (P : Protocol) (env : Env) (t : Trace) : Int × Trace :=
  invoke env t
    (Call.register_set_byte P.PX4IO_PAGE_SETUP P.PX4IO_P_SETUP_FORCE_SAFETY_OFF
      P.PX4IO_FORCE_SAFETY_MAGIC)

/-- Function `rcio_pwm_create_sysfs_handle`: allocate the chip, `-ENOMEM` on
`NULL`, else the result of `pwmchip_add`. -/
def rcio_pwm_create_sysfs_handle (env : Env) (t : Trace) : Int × Trace :=
  let a := invoke env t Call.kzalloc
  if a.1 = 0 then (-ENOMEM, a.2)
  else invoke env a.2 (Call.pwmchip_add RCIO_PWM_MAX_CHANNELS)

/-- Function `rcio_pwm_probe`: publish the attribute group, then the three
byte writes, each aborting on a negative answer, then the generic PWM chip,
whose failure only logs a warning.  None of the four cached variables is
assigned. -/
def rcio_pwm_probe (P : Protocol) (env : Env) (s : PwmState) (t : Trace) :
    Int × PwmState × Trace :=
  let g := invoke env t Call.sysfs_create_group
  let ret := g.1
  if ret < 0 then (ret, s, log g.2 "pr_err" "PWM node not created")
  else
    let w1 := rcio_pwm_safety_off P env g.2
    if w1.1 < 0 then (-ENOTCONN, s, log w1.2 "pr_err" "SAFETY ON")
    else
      let w2 := invoke env w1.2
        (Call.register_set_byte P.PX4IO_PAGE_SETUP P.PX4IO_P_SETUP_ARMING
          (P.PX4IO_P_SETUP_ARMING_IO_ARM_OK ||| P.PX4IO_P_SETUP_ARMING_FMU_ARMED |||
            P.PX4IO_P_SETUP_ARMING_ALWAYS_PWM_ENABLE))
      if w2.1 < 0 then (-ENOTCONN, s, log w2.2 "pr_err" "ARMING OFF")
      else
        let w3 := invoke env w2.2
          (Call.register_set_byte P.PX4IO_PAGE_SETUP P.PX4IO_P_SETUP_PWM_DEFAULTRATE s.frequency)
        if w3.1 < 0 then (-ENOTCONN, s, log w3.2 "pr_err" "Frequency not set")
        else
          let h := rcio_pwm_create_sysfs_handle env w3.2
          let t6 := if h.1 < 0 then log h.2 "pr_warn" "Generic PWM interface for RCIO not created"
                    else h.2
          (0, s, t6)

/-! ## Operations of the driver as a transition system -/

/-- The entry points of the driver: the three store handlers with the text
written to the attribute, the two show handlers, the periodic update and the
attach routine. -/
inductive Op where
  | channel_store (attr_name buf : String) (count : Nat)
  | frequency_store (buf : String) (count : Nat)
  | armed_store (buf : String) (count : Nat)
  | frequency_show
  | armed_show
  | rcio_pwm_update
  | rcio_pwm_probe
  deriving Repr, DecidableEq

/-- The cached variables together with the calls made so far. -/
structure Sys where
  st : PwmState
  trace : Trace

/-- One entry point run on a configuration: its return value and the
configuration it leaves. -/
def step (K : Kstrtoint) (P : Protocol) (env : Env) (c : Sys) : Op → Int × Sys
  | Op.channel_store a b n =>
      let r := channel_store K c.st a b n
      (r.1, { c with st := r.2 })
  | Op.frequency_store b n =>
      let r := frequency_store K c.st b n
      (r.1, { c with st := r.2 })
  | Op.armed_store b n =>
      let r := armed_store K c.st b n
      (r.1, { c with st := r.2 })
  | Op.frequency_show => ((frequency_show c.st).1, c)
  | Op.armed_show => ((armed_show c.st).1, c)
  | Op.rcio_pwm_update =>
      let r := rcio_pwm_update P env c.st c.trace
      (r.1, { st := r.2.1, trace := r.2.2 })
  | Op.rcio_pwm_probe =>
      let r := rcio_pwm_probe P env c.st c.trace
      (r.1, { st := r.2.1, trace := r.2.2 })

/-- A sequence of entry points run in order. -/
def run (K : Kstrtoint) (P : Protocol) (env : Env) (c : Sys) (ops : List Op) : Sys :=
  ops.foldl (fun c op => (step K P env c op).2) c

/-- A sequence of `channel_store` calls, each with its attribute name, text
and count, run in order on the cached variables. -/
def channel_stores (K : Kstrtoint) (s : PwmState) (calls : List (String × String × Nat)) :
    PwmState :=
  calls.foldl (fun st c => (channel_store K st c.1 c.2.1 c.2.2).2) s

/-- The configuration at module load: the static initialisers, no call made. -/
def Sys.init : Sys := { st := PwmState.init, trace := [] }

/-! ## Reading a trace -/

/-- The calls a routine added to the trace `t` it started from, given the
trace `t1` it returned. -/
def issued (t t1 : Trace) : Trace := t1.drop t.length

/-- Is the call a `register_set_byte`? -/
def Call.isByteWrite : Call → Bool
  | Call.register_set_byte _ _ _ => true
  | _ => false

/-- Is the call a `register_set` (a block write)? -/
def Call.isBlockWrite : Call → Bool
  | Call.register_set _ _ _ _ => true
  | _ => false

/-- The byte writes of a trace, in order. -/
def byteWrites (t : Trace) : List Call := t.filter Call.isByteWrite

/-- The block writes of a trace, in order. -/
def blockWrites (t : Trace) : List Call := t.filter Call.isBlockWrite

/-- The byte write that lifts the safety interlock. -/
def safetyOffCall (P : Protocol) : Call :=
  Call.register_set_byte P.PX4IO_PAGE_SETUP P.PX4IO_P_SETUP_FORCE_SAFETY_OFF
    P.PX4IO_FORCE_SAFETY_MAGIC

/-- The byte write of the arming-control register. -/
def armingCall (P : Protocol) : Call :=
  Call.register_set_byte P.PX4IO_PAGE_SETUP P.PX4IO_P_SETUP_ARMING
    (P.PX4IO_P_SETUP_ARMING_IO_ARM_OK ||| P.PX4IO_P_SETUP_ARMING_FMU_ARMED |||
      P.PX4IO_P_SETUP_ARMING_ALWAYS_PWM_ENABLE)

/-- The byte write of the default-rate register with value `f`. -/
def defaultRateCall (P : Protocol) (f : Nat) : Call :=
  Call.register_set_byte P.PX4IO_PAGE_SETUP P.PX4IO_P_SETUP_PWM_DEFAULTRATE f

/-- The block write of the cached channel values. -/
def blockCall (P : Protocol) (s : PwmState) : Call :=
  Call.register_set P.PX4IO_PAGE_DIRECT_PWM 0 s.block RCIO_PWM_MAX_CHANNELS

/-- The calls one `rcio_pwm_update` adds to the trace `t`. -/
def updateCalls (P : Protocol) (env : Env) (s : PwmState) (t : Trace) : Trace :=
  issued t (rcio_pwm_update P env s t).2.2

/-- The calls one `rcio_pwm_probe` adds to the trace `t`. -/
def probeCalls (P : Protocol) (env : Env) (s : PwmState) (t : Trace) : Trace :=
  issued t (rcio_pwm_probe P env s t).2.2

/-- The answer of the environment to step 1 of the attach sequence,
`sysfs_create_group`. -/
def probeAnswer0 (env : Env) (t : Trace) : Int :=
  env t Call.sysfs_create_group

/-- The answer of the environment to the safety-override write, issued after
step 1. -/
def probeAnswer1 (P : Protocol) (env : Env) (t : Trace) : Int :=
  env (t ++ [Call.sysfs_create_group]) (safetyOffCall P)

/-- The answer of the environment to the arming-control write, issued after
the safety-override write. -/
def probeAnswer2 (P : Protocol) (env : Env) (t : Trace) : Int :=
  env (t ++ [Call.sysfs_create_group, safetyOffCall P]) (armingCall P)

/-- The answer of the environment to the default-rate write, issued after the
arming-control write. -/
def probeAnswer3 (P : Protocol) (env : Env) (s : PwmState) (t : Trace) : Int :=
  env (t ++ [Call.sysfs_create_group, safetyOffCall P, armingCall P])
    (defaultRateCall P s.frequency)

/-- The calls of `rcio_pwm_create_sysfs_handle` and the warning that follows a
negative result, as `rcio_pwm_probe` adds them after the trace `t`. -/
def handleCalls (env : Env) (t : Trace) : List Call :=
  Call.kzalloc ::
    (if env t Call.kzalloc = 0 then
      [Call.printk "pr_warn" "Generic PWM interface for RCIO not created"]
    else
      Call.pwmchip_add RCIO_PWM_MAX_CHANNELS ::
        (if env (t ++ [Call.kzalloc]) (Call.pwmchip_add RCIO_PWM_MAX_CHANNELS) < 0 then
          [Call.printk "pr_warn" "Generic PWM interface for RCIO not created"]
        else []))

/-- The calls of the frequency reconciliation of `rcio_pwm_update`: nothing
when no push is pending, else the default-rate write, followed by the log line
when the write is answered negatively. -/
def pushCalls (P : Protocol) (env : Env) (s : PwmState) (t : Trace) : List Call :=
  if s.frequency_updated then
    defaultRateCall P s.frequency ::
      (if env t (defaultRateCall P s.frequency) < 0
        then [Call.printk "KERN_INFO" "Frequency not set\n"] else [])
  else []

/-- The answer of the environment to the default-rate write of an
`rcio_pwm_update` started on trace `t`. -/
def pushAnswer (P : Protocol) (env : Env) (s : PwmState) (t : Trace) : Int :=
  env t (defaultRateCall P s.frequency)

/-- The answer of the environment to the block write of an `rcio_pwm_update`
started on trace `t`, the write coming after the frequency reconciliation. -/
def blockAnswer (P : Protocol) (env : Env) (s : PwmState) (t : Trace) : Int :=
  env (t ++ pushCalls P env s t) (blockCall P s)

/-- Is the operation a `frequency_store`? -/
def Op.isFrequencyStore : Op → Bool
  | Op.frequency_store _ _ => true
  | _ => false

/-- Is the operation an `rcio_pwm_update`? -/
def Op.isUpdate : Op → Bool
  | Op.rcio_pwm_update => true
  | _ => false

/-- The attribute name of channel `i`, as in the `__ATTR(ch0, ...)` table. -/
def chName : Fin 8 → String
  | 0 => "ch0"
  | 1 => "ch1"
  | 2 => "ch2"
  | 3 => "ch3"
  | 4 => "ch4"
  | 5 => "ch5"
  | 6 => "ch6"
  | 7 => "ch7"

/-! ## Concrete instances used to evaluate the definitions -/

/-- Protocol constants with the values of the PX4IO register map. -/
def px4io : Protocol :=
  { PX4IO_PAGE_SETUP := 50
    PX4IO_P_SETUP_ARMING := 1
    PX4IO_P_SETUP_ARMING_IO_ARM_OK := 1
    PX4IO_P_SETUP_ARMING_FMU_ARMED := 2
    PX4IO_P_SETUP_ARMING_ALWAYS_PWM_ENABLE := 32
    PX4IO_P_SETUP_PWM_DEFAULTRATE := 3
    PX4IO_P_SETUP_FORCE_SAFETY_OFF := 12
    PX4IO_FORCE_SAFETY_MAGIC := 22027
    PX4IO_PAGE_DIRECT_PWM := 54 }

/-- Value of a run of decimal digits, `none` when it is empty or holds another
character. -/
def decimalValue (cs : List Char) : Option Nat :=
  if cs = [] then none
  else cs.foldl
    (fun acc c => acc.bind fun n =>
      if 48 ≤ c.toNat ∧ c.toNat ≤ 57 then some (10 * n + (c.toNat - 48)) else none)
    (some 0)

/-- A decimal parser with the contract of `kstrtoint(buf, 10, &value)`: an
optional sign, digits, an optional final newline; `-EINVAL` for other text,
`-ERANGE` outside the range of `int`, else `0` and the value. -/
def kstrtoint_dec : Kstrtoint := fun buf =>
  let cs := buf.toList
  let (neg, ds) : Bool × List Char :=
    match cs with
    | '-' :: r => (true, r)
    | '+' :: r => (false, r)
    | _ => (false, cs)
  let ds := if ds.getLast? = some (Char.ofNat 10) then ds.dropLast else ds
  match decimalValue ds with
  | none => (-EINVAL, 0)
  | some n =>
      let v : Int := if neg then -(n : Int) else (n : Int)
      if v < -2147483648 ∨ 2147483647 < v then (-ERANGE, 0) else (0, v)

/-- A register port and kernel on which every call succeeds (`kzalloc`
returns a non-null pointer). -/
def envOk : Env := fun _ c =>
  match c with
  | Call.kzalloc => 1
  | _ => 0

/-- A register port on which every byte and block write fails with `-5`
(`-EIO`), the kernel calls succeeding. -/
def envIoFail : Env := fun _ c =>
  match c with
  | Call.register_set_byte _ _ _ => -5
  | Call.register_set _ _ _ _ => -5
  | Call.kzalloc => 1
  | _ => 0

/-- The static initial state after `armed` has been set. -/
def armedInit : PwmState := { PwmState.init with armed := true }

/-! ## Basic facts about the embedding -/

theorem issued_append (t l : Trace) : issued t (t ++ l) = l := by
  simp [issued]

theorem issued_self (t : Trace) : issued t t = [] := by
  simp [issued]

/-- The trace `rcio_pwm_update` leaves: the old trace, then the calls of the
frequency reconciliation, then the block write when armed. -/
theorem rcio_pwm_update_trace (P : Protocol) (env : Env) (s : PwmState) (t : Trace) :
    (rcio_pwm_update P env s t).2.2 =
      t ++ (pushCalls P env s t ++ (if s.armed then [blockCall P s] else [])) := by
  unfold rcio_pwm_update pushCalls
  cases hf : s.frequency_updated <;> cases ha : s.armed <;>
    simp [invoke, log, defaultRateCall, blockCall, PwmState.block, hf, ha] <;>
    split_ifs <;> simp

/-- The calls one `rcio_pwm_update` adds. -/
theorem updateCalls_eq (P : Protocol) (env : Env) (s : PwmState) (t : Trace) :
    updateCalls P env s t =
      pushCalls P env s t ++ (if s.armed then [blockCall P s] else []) := by
  rw [updateCalls, rcio_pwm_update_trace, issued_append]

/-- The cached variables `rcio_pwm_update` leaves: only the flag is cleared. -/
theorem rcio_pwm_update_state (P : Protocol) (env : Env) (s : PwmState) (t : Trace) :
    (rcio_pwm_update P env s t).2.1 = { s with frequency_updated := false } := by
  unfold rcio_pwm_update
  cases hf : s.frequency_updated <;> cases ha : s.armed <;> simp [invoke, hf, ha] <;>
    cases s <;> simp_all

/-- The value `rcio_pwm_update` returns: the answer to the block write when
armed, else `1`. -/
theorem rcio_pwm_update_ret (P : Protocol) (env : Env) (s : PwmState) (t : Trace) :
    (rcio_pwm_update P env s t).1 = if s.armed then blockAnswer P env s t else 1 := by
  unfold rcio_pwm_update blockAnswer pushCalls
  cases hf : s.frequency_updated <;> cases ha : s.armed <;>
    simp [invoke, log, defaultRateCall, blockCall, PwmState.block, hf, ha]
  split_ifs <;> simp

/-- The byte writes among the calls of the frequency reconciliation. -/
theorem byteWrites_pushCalls (P : Protocol) (env : Env) (s : PwmState) (t : Trace) :
    byteWrites (pushCalls P env s t) =
      if s.frequency_updated then [defaultRateCall P s.frequency] else [] := by
  unfold pushCalls byteWrites
  split_ifs <;> simp [defaultRateCall, Call.isByteWrite]

/-- The frequency reconciliation issues no block write. -/
theorem blockWrites_pushCalls (P : Protocol) (env : Env) (s : PwmState) (t : Trace) :
    blockWrites (pushCalls P env s t) = [] := by
  unfold pushCalls blockWrites
  split_ifs <;> simp [defaultRateCall, Call.isBlockWrite]

/-- The byte writes of one `rcio_pwm_update`. -/
theorem byteWrites_updateCalls (P : Protocol) (env : Env) (s : PwmState) (t : Trace) :
    byteWrites (updateCalls P env s t) =
      if s.frequency_updated then [defaultRateCall P s.frequency] else [] := by
  rw [updateCalls_eq, byteWrites, List.filter_append, ← byteWrites, byteWrites_pushCalls]
  split_ifs <;> simp [blockCall, Call.isByteWrite]

/-- The block writes of one `rcio_pwm_update`. -/
theorem blockWrites_updateCalls (P : Protocol) (env : Env) (s : PwmState) (t : Trace) :
    blockWrites (updateCalls P env s t) = if s.armed then [blockCall P s] else [] := by
  rw [updateCalls_eq, blockWrites, List.filter_append, ← blockWrites, blockWrites_pushCalls]
  split_ifs <;> simp [blockCall, Call.isBlockWrite]

/-- No call of one `rcio_pwm_update` is a `register_set` unless armed. -/
theorem register_set_mem_updateCalls (P : Protocol) (env : Env) (s : PwmState) (t : Trace)
    (page offset : Nat) (data : List Nat) (count : Nat)
    (h : Call.register_set page offset data count ∈ updateCalls P env s t) :
    s.armed = true := by
  have hm : Call.register_set page offset data count ∈ blockWrites (updateCalls P env s t) := by
    simp [blockWrites, h, Call.isBlockWrite]
  rw [blockWrites_updateCalls] at hm
  by_contra hc
  simp [hc] at hm

theorem channel_store_armed (K : Kstrtoint) (s : PwmState) (a b : String) (n : Nat) :
    (channel_store K s a b n).2.armed = s.armed := by
  simp only [channel_store]
  split_ifs <;> rfl

theorem channel_store_frequency (K : Kstrtoint) (s : PwmState) (a b : String) (n : Nat) :
    (channel_store K s a b n).2.frequency = s.frequency ∧
      (channel_store K s a b n).2.frequency_updated = s.frequency_updated := by
  simp only [channel_store]
  split_ifs <;> exact ⟨rfl, rfl⟩

theorem channel_stores_armed (K : Kstrtoint) (calls : List (String × String × Nat))
    (s : PwmState) : (channel_stores K s calls).armed = s.armed := by
  induction calls generalizing s with
  | nil => rfl
  | cons c cs ih =>
    simp only [channel_stores, List.foldl_cons] at ih ⊢
    rw [ih, channel_store_armed]

theorem u16_eq_emod (v : Int) : ((u16 v : Nat) : Int) = v % 65536 := by
  unfold u16
  exact Int.toNat_of_nonneg (Int.emod_nonneg v (by decide))

theorem u16_of_range (v : Int) (h0 : 0 ≤ v) (h1 : v ≤ 65535) : ((u16 v : Nat) : Int) = v := by
  rw [u16_eq_emod]
  exact Int.emod_eq_of_lt h0 (by omega)

/-- The state `channel_store` leaves on the attribute of channel `i` when the
text parses: slot `i` is overwritten, nothing else. -/
theorem channel_store_chName (K : Kstrtoint) (s : PwmState) (i : Fin 8) (buf : String)
    (count : Nat) (h : ¬ (K buf).1 < 0) :
    channel_store K s (chName i) buf count =
      ((count : Int), { s with values := Function.update s.values i (u16 (K buf).2) }) := by
  simp only [channel_store, if_neg h]
  fin_cases i <;> simp [chName]

/-- The value `rcio_pwm_probe` returns, by the answers to its first four
steps. -/
theorem rcio_pwm_probe_ret (P : Protocol) (env : Env) (s : PwmState) (t : Trace) :
    (rcio_pwm_probe P env s t).1 =
      if probeAnswer0 env t < 0 then probeAnswer0 env t
      else if probeAnswer1 P env t < 0 then -ENOTCONN
      else if probeAnswer2 P env t < 0 then -ENOTCONN
      else if probeAnswer3 P env s t < 0 then -ENOTCONN
      else 0 := by
  simp only [rcio_pwm_probe, rcio_pwm_safety_off, invoke, probeAnswer0, probeAnswer1,
    probeAnswer2, probeAnswer3, safetyOffCall, armingCall, defaultRateCall,
    List.append_assoc, List.singleton_append, List.cons_append, List.nil_append]
  split_ifs <;> rfl

/-- The calls one `rcio_pwm_probe` adds, by the answers to its first four
steps. -/
theorem probeCalls_eq (P : Protocol) (env : Env) (s : PwmState) (t : Trace) :
    probeCalls P env s t =
      Call.sysfs_create_group ::
        (if probeAnswer0 env t < 0 then [Call.printk "pr_err" "PWM node not created"]
         else safetyOffCall P ::
          (if probeAnswer1 P env t < 0 then [Call.printk "pr_err" "SAFETY ON"]
           else armingCall P ::
            (if probeAnswer2 P env t < 0 then [Call.printk "pr_err" "ARMING OFF"]
             else defaultRateCall P s.frequency ::
              (if probeAnswer3 P env s t < 0 then [Call.printk "pr_err" "Frequency not set"]
               else handleCalls env
                 (t ++ [Call.sysfs_create_group, safetyOffCall P, armingCall P,
                   defaultRateCall P s.frequency]))))) := by
  simp only [probeCalls, rcio_pwm_probe, rcio_pwm_safety_off, rcio_pwm_create_sysfs_handle,
    invoke, log, probeAnswer0, probeAnswer1, probeAnswer2, probeAnswer3, safetyOffCall,
    armingCall, defaultRateCall, handleCalls, ENOMEM,
    List.append_assoc, List.singleton_append, List.cons_append, List.nil_append]
  split_ifs <;> simp_all [issued]

/-- The attach routine `rcio_pwm_probe` assigns none of the cached variables. -/
theorem rcio_pwm_probe_state (P : Protocol) (env : Env) (s : PwmState) (t : Trace) :
    (rcio_pwm_probe P env s t).2.1 = s := by
  simp only [rcio_pwm_probe]
  split_ifs <;> rfl

theorem armed_store_frequency (K : Kstrtoint) (s : PwmState) (b : String) (n : Nat) :
    (armed_store K s b n).2.frequency = s.frequency ∧
      (armed_store K s b n).2.frequency_updated = s.frequency_updated := by
  simp only [armed_store]
  split_ifs <;> exact ⟨rfl, rfl⟩

/-- Every operation other than `frequency_store` and `rcio_pwm_update` leaves
`frequency` and `frequency_updated` as they were. -/
theorem step_frequency (K : Kstrtoint) (P : Protocol) (env : Env) (c : Sys) (op : Op)
    (h1 : op.isFrequencyStore = false) (h2 : op.isUpdate = false) :
    (step K P env c op).2.st.frequency = c.st.frequency ∧
      (step K P env c op).2.st.frequency_updated = c.st.frequency_updated := by
  cases op with
  | channel_store a b n => exact channel_store_frequency K c.st a b n
  | frequency_store b n => simp [Op.isFrequencyStore] at h1
  | armed_store b n => exact armed_store_frequency K c.st b n
  | frequency_show => exact ⟨rfl, rfl⟩
  | armed_show => exact ⟨rfl, rfl⟩
  | rcio_pwm_update => simp [Op.isUpdate] at h2
  | rcio_pwm_probe => simp [step, rcio_pwm_probe_state]

theorem run_frequency (K : Kstrtoint) (P : Protocol) (env : Env) (ops : List Op) (c : Sys)
    (h : ∀ op ∈ ops, op.isFrequencyStore = false ∧ op.isUpdate = false) :
    (run K P env c ops).st.frequency = c.st.frequency ∧
      (run K P env c ops).st.frequency_updated = c.st.frequency_updated := by
  induction ops generalizing c with
  | nil => exact ⟨rfl, rfl⟩
  | cons op ops ih =>
    have hop := h op (List.mem_cons_self _ _)
    have hs := step_frequency K P env c op hop.1 hop.2
    have hr := ih (step K P env c op).2 (fun o ho => h o (List.mem_cons_of_mem _ ho))
    simp only [run, List.foldl_cons] at hr ⊢
    exact ⟨hr.1.trans hs.1, hr.2.trans hs.2⟩

/-- A cleared flag stays cleared under every operation other than
`frequency_store`. -/
theorem step_flag_false (K : Kstrtoint) (P : Protocol) (env : Env) (c : Sys) (op : Op)
    (h1 : op.isFrequencyStore = false) (hf : c.st.frequency_updated = false) :
    (step K P env c op).2.st.frequency_updated = false := by
  cases op with
  | rcio_pwm_update => simp [step, rcio_pwm_update_state]
  | frequency_store b n => simp [Op.isFrequencyStore] at h1
  | channel_store a b n =>
    rw [(step_frequency K P env c (Op.channel_store a b n) rfl rfl).2, hf]
  | armed_store b n => rw [(step_frequency K P env c (Op.armed_store b n) rfl rfl).2, hf]
  | frequency_show => rw [(step_frequency K P env c Op.frequency_show rfl rfl).2, hf]
  | armed_show => rw [(step_frequency K P env c Op.armed_show rfl rfl).2, hf]
  | rcio_pwm_probe => rw [(step_frequency K P env c Op.rcio_pwm_probe rfl rfl).2, hf]

theorem run_flag_false (K : Kstrtoint) (P : Protocol) (env : Env) (ops : List Op) (c : Sys)
    (h : ∀ op ∈ ops, op.isFrequencyStore = false) (hf : c.st.frequency_updated = false) :
    (run K P env c ops).st.frequency_updated = false := by
  induction ops generalizing c with
  | nil => exact hf
  | cons op ops ih =>
    have hs := step_flag_false K P env c op (h op (List.mem_cons_self _ _)) hf
    have hr := ih (step K P env c op).2 (fun o ho => h o (List.mem_cons_of_mem _ ho)) hs
    simpa only [run, List.foldl_cons] using hr

/-- What `frequency_store` does when the text parses: it stores the value
modulo `2^16`, raises the flag, and accepts exactly when the stored value is at
most 1000. -/
theorem frequency_store_parsed (K : Kstrtoint) (s : PwmState) (buf : String) (count : Nat)
    (h : ¬ (K buf).1 < 0) :
    frequency_store K s buf count =
      (if 1000 < u16 (K buf).2 then -EINVAL else (count : Int),
        { s with frequency := u16 (K buf).2, frequency_updated := true }) := by
  simp only [frequency_store, if_neg h]
  split_ifs with h2 h3 h3
  · rfl
  · exfalso; rcases h2 with h2 | h2 <;> omega
  · exfalso; apply h2; right; exact_mod_cast h3
  · rfl

theorem run_append (K : Kstrtoint) (P : Protocol) (env : Env) (c : Sys) (xs ys : List Op) :
    run K P env c (xs ++ ys) = run K P env (run K P env c xs) ys := by
  simp [run, List.foldl_append]

theorem run_cons (K : Kstrtoint) (P : Protocol) (env : Env) (c : Sys) (op : Op)
    (ops : List Op) :
    run K P env c (op :: ops) = run K P env (step K P env c op).2 ops := rfl

/-- What `armed_store` does when the text parses: `armed` becomes `value > 0`,
nothing else changes, and the count is returned. -/
theorem armed_store_parsed (K : Kstrtoint) (s : PwmState) (buf : String) (count : Nat)
    (h : ¬ (K buf).1 < 0) :
    armed_store K s buf count =
      ((count : Int), { s with armed := decide ((K buf).2 > 0) }) := by
  simp only [armed_store, if_neg h]
  split_ifs with hv <;> simp [hv]

/-- The text `armed_show` writes and the length it returns. -/
theorem armed_show_text (s : PwmState) :
    (armed_show s).2 = (if s.armed then "1\n" else "0\n") ∧ (armed_show s).1 = 2 := by
  unfold armed_show
  cases s.armed
  · exact ⟨by decide, by decide⟩
  · exact ⟨by decide, by decide⟩

/-! ## Claims -/

/-- C1. Hard arming gate: from any state with `armed` false, after any finite
sequence of `channel_store` calls (any attribute names, any texts), whatever
the register port answers, the following `rcio_pwm_update` adds no block write
to the trace: `register_set` is not called at all. -/
theorem C1_disarmed_update_issues_no_block_write (K : Kstrtoint) (P : Protocol) (env : Env)
    (s : PwmState) (calls : List (String × String × Nat)) (t : Trace)
    (h : s.armed = false) :
    blockWrites (updateCalls P env (channel_stores K s calls) t) = [] ∧
    ∀ page offset data count,
      Call.register_set page offset data count ∉
        updateCalls P env (channel_stores K s calls) t := by
  have ha : (channel_stores K s calls).armed = false := by
    rw [channel_stores_armed, h]
  constructor
  · rw [blockWrites_updateCalls, ha]
    rfl
  · intro page offset data count hm
    have := register_set_mem_updateCalls P env _ t page offset data count hm
    rw [ha] at this
    exact Bool.noConfusion this

/-- Witness of C1: the initial state with a frequency of 400 pending is
disarmed; three channel writes later, the update issues no block write. -/
theorem C1_witness :
    (frequency_store kstrtoint_dec PwmState.init "400" 3).2.armed = false ∧
    blockWrites (updateCalls px4io envOk
        (channel_stores kstrtoint_dec (frequency_store kstrtoint_dec PwmState.init "400" 3).2
          [("ch0", "1500", 4), ("ch7", "1100\n", 5), ("ch3", "-7", 2)]) []) = [] :=
  ⟨rfl, (C1_disarmed_update_issues_no_block_write kstrtoint_dec px4io envOk
    (frequency_store kstrtoint_dec PwmState.init "400" 3).2
    [("ch0", "1500", 4), ("ch7", "1100\n", 5), ("ch3", "-7", 2)] [] rfl).1⟩

/-- C2, as amended. For every channel `i` of 0..7, every text that parses to an
integer `v` and every prior state with `armed` true, `channel_store` on the
attribute of channel `i` followed by `rcio_pwm_update` issues exactly one block
write, to page `PX4IO_PAGE_DIRECT_PWM`, offset 0, count 8, with 8 values:
position `i` holds `v mod 65536` (which is `v` when `0 ≤ v ≤ 65535`), every
other position `j` holds what slot `j` held before. -/
theorem C2_armed_channel_store_then_update (K : Kstrtoint) (P : Protocol) (env : Env)
    (s : PwmState) (t : Trace) (i : Fin 8) (buf : String) (count : Nat) (v : Int)
    (hparse : K buf = (0, v)) (harmed : s.armed = true) :
    ∃ data : List Nat,
      blockWrites (updateCalls P env (channel_store K s (chName i) buf count).2 t) =
        [Call.register_set P.PX4IO_PAGE_DIRECT_PWM 0 data 8] ∧
      data.length = 8 ∧
      data[i.val]? = some (u16 v) ∧
      (∀ j : Fin 8, j ≠ i → data[j.val]? = some (s.values j)) ∧
      ((u16 v : Nat) : Int) = v % 65536 ∧
      (0 ≤ v → v ≤ 65535 → ((u16 v : Nat) : Int) = v) := by
  have hp : ¬ (K buf).1 < 0 := by simp [hparse]
  refine ⟨(channel_store K s (chName i) buf count).2.block, ?_, ?_, ?_, ?_,
    u16_eq_emod v, u16_of_range v⟩
  · rw [blockWrites_updateCalls, channel_store_armed, harmed]
    rfl
  · simp [PwmState.block]
  · rw [channel_store_chName K s i buf count hp, hparse]
    fin_cases i <;> simp [PwmState.block, Function.update]
  · intro j hj
    rw [channel_store_chName K s i buf count hp, hparse]
    fin_cases i <;> fin_cases j <;> simp_all [PwmState.block, Function.update]

/-- Witness of C2, the scenario of the specification: from the initial state,
`armed` set to 1, channel 0 set to 1500, channel 7 set to 1100, then one update
gives the single block write `[1500,0,0,0,0,0,0,1100]` to page 54, offset 0. -/
theorem C2_witness :
    (kstrtoint_dec "1100" = (0, 1100) ∧
      (channel_store kstrtoint_dec (armed_store kstrtoint_dec PwmState.init "1" 1).2
        "ch0" "1500" 4).2.armed = true) ∧
    (∃ data : List Nat,
      blockWrites (updateCalls px4io envOk
            (channel_store kstrtoint_dec
              (channel_store kstrtoint_dec (armed_store kstrtoint_dec PwmState.init "1" 1).2
                "ch0" "1500" 4).2 (chName 7) "1100" 4).2 []) =
        [Call.register_set px4io.PX4IO_PAGE_DIRECT_PWM 0 data 8] ∧
      data.length = 8 ∧
      data[(7 : Fin 8).val]? = some (u16 1100) ∧
      (∀ j : Fin 8, j ≠ 7 →
        data[j.val]? = some ((channel_store kstrtoint_dec
          (armed_store kstrtoint_dec PwmState.init "1" 1).2 "ch0" "1500" 4).2.values j)) ∧
      ((u16 1100 : Nat) : Int) = 1100 % 65536 ∧
      ((0 : Int) ≤ 1100 → (1100 : Int) ≤ 65535 → ((u16 1100 : Nat) : Int) = 1100)) ∧
    blockWrites (updateCalls px4io envOk
          (channel_store kstrtoint_dec
            (channel_store kstrtoint_dec (armed_store kstrtoint_dec PwmState.init "1" 1).2
              "ch0" "1500" 4).2 "ch7" "1100" 4).2 []) =
      [Call.register_set 54 0 [1500, 0, 0, 0, 0, 0, 0, 1100] 8] :=
  ⟨⟨by decide, by decide⟩,
   C2_armed_channel_store_then_update kstrtoint_dec px4io envOk
     (channel_store kstrtoint_dec (armed_store kstrtoint_dec PwmState.init "1" 1).2
        "ch0" "1500" 4).2 [] 7 "1100" 4 1100 (by decide) (by decide),
   by decide⟩

/-- Counterexample to C2 as stated (position `i` holds `v` for every integer
`v`): the text `-1` parses to `-1`, and the block written after storing it in
channel 0 holds `65535` at position 0. -/
theorem C2_counterexample :
    kstrtoint_dec "-1" = (0, -1) ∧ armedInit.armed = true ∧
    blockWrites (updateCalls px4io envOk
          (channel_store kstrtoint_dec armedInit (chName 0) "-1" 2).2 []) =
      [Call.register_set 54 0 [65535, 0, 0, 0, 0, 0, 0, 0] 8] ∧
    ((65535 : Nat) : Int) ≠ -1 := by
  decide

/-- C3. `rcio_pwm_probe` returns 0 exactly when `sysfs_create_group` and the
three byte writes (safety override, arming control, default rate) all answer a
non-negative value; a negative answer of `sysfs_create_group` is returned as it
is; a negative answer of any of the three writes gives `-ENOTCONN`; and two
environments that differ only in what `kzalloc` and `pwmchip_add` answer (the
optional PWM chip registration) give the same return value. -/
theorem C3_probe_return_value (P : Protocol) (env : Env) (s : PwmState) (t : Trace) :
    ((rcio_pwm_probe P env s t).1 = 0 ↔
      0 ≤ probeAnswer0 env t ∧ 0 ≤ probeAnswer1 P env t ∧ 0 ≤ probeAnswer2 P env t ∧
        0 ≤ probeAnswer3 P env s t) ∧
    (probeAnswer0 env t < 0 → (rcio_pwm_probe P env s t).1 = probeAnswer0 env t) ∧
    (0 ≤ probeAnswer0 env t →
      (probeAnswer1 P env t < 0 ∨ probeAnswer2 P env t < 0 ∨ probeAnswer3 P env s t < 0) →
      (rcio_pwm_probe P env s t).1 = -ENOTCONN) ∧
    (∀ env2 : Env,
      (∀ (u : Trace) (c : Call), c ≠ Call.kzalloc → (∀ n, c ≠ Call.pwmchip_add n) →
        env2 u c = env u c) →
      (rcio_pwm_probe P env2 s t).1 = (rcio_pwm_probe P env s t).1) := by
  refine ⟨?_, ?_, ?_, ?_⟩
  · rw [rcio_pwm_probe_ret]
    split_ifs <;> first | (simp [ENOTCONN]; omega) | omega
  · intro h
    rw [rcio_pwm_probe_ret, if_pos h]
  · intro h0 h
    rw [rcio_pwm_probe_ret, if_neg (by omega)]
    split_ifs <;> first | rfl | omega
  · intro env2 h
    have e0 : probeAnswer0 env2 t = probeAnswer0 env t :=
      h _ _ (by simp) (by simp)
    have e1 : probeAnswer1 P env2 t = probeAnswer1 P env t :=
      h _ _ (by simp [safetyOffCall]) (by simp [safetyOffCall])
    have e2 : probeAnswer2 P env2 t = probeAnswer2 P env t :=
      h _ _ (by simp [armingCall]) (by simp [armingCall])
    have e3 : probeAnswer3 P env2 s t = probeAnswer3 P env s t :=
      h _ _ (by simp [defaultRateCall]) (by simp [defaultRateCall])
    rw [rcio_pwm_probe_ret, rcio_pwm_probe_ret, e0, e1, e2, e3]

/-- C4. Bring-up ordering and abort. Whatever the environment answers, the
byte writes `rcio_pwm_probe` issues are a prefix of [safety override with the
magic constant, arming control with `IO_ARM_OK | FMU_ARMED | ALWAYS_PWM_ENABLE`,
default rate with the current `frequency`], all to page `PX4IO_PAGE_SETUP`;
the prefix stops at the first write answered negatively, is empty when
`sysfs_create_group` fails, and is complete otherwise; `kzalloc` (the optional
registration) is called exactly when all four steps succeeded, and then after
the three writes; no block write is issued. -/
theorem C4_probe_write_sequence (P : Protocol) (env : Env) (s : PwmState) (t : Trace) :
    byteWrites (probeCalls P env s t) <+:
      [Call.register_set_byte P.PX4IO_PAGE_SETUP P.PX4IO_P_SETUP_FORCE_SAFETY_OFF
          P.PX4IO_FORCE_SAFETY_MAGIC,
       Call.register_set_byte P.PX4IO_PAGE_SETUP P.PX4IO_P_SETUP_ARMING
          (P.PX4IO_P_SETUP_ARMING_IO_ARM_OK ||| P.PX4IO_P_SETUP_ARMING_FMU_ARMED |||
            P.PX4IO_P_SETUP_ARMING_ALWAYS_PWM_ENABLE),
       Call.register_set_byte P.PX4IO_PAGE_SETUP P.PX4IO_P_SETUP_PWM_DEFAULTRATE s.frequency] ∧
    (probeAnswer0 env t < 0 → byteWrites (probeCalls P env s t) = []) ∧
    (0 ≤ probeAnswer0 env t → probeAnswer1 P env t < 0 →
      byteWrites (probeCalls P env s t) = [safetyOffCall P]) ∧
    (0 ≤ probeAnswer0 env t → 0 ≤ probeAnswer1 P env t → probeAnswer2 P env t < 0 →
      byteWrites (probeCalls P env s t) = [safetyOffCall P, armingCall P]) ∧
    (0 ≤ probeAnswer0 env t → 0 ≤ probeAnswer1 P env t → 0 ≤ probeAnswer2 P env t →
      byteWrites (probeCalls P env s t) =
        [safetyOffCall P, armingCall P, defaultRateCall P s.frequency]) ∧
    (Call.kzalloc ∈ probeCalls P env s t ↔
      0 ≤ probeAnswer0 env t ∧ 0 ≤ probeAnswer1 P env t ∧ 0 ≤ probeAnswer2 P env t ∧
        0 ≤ probeAnswer3 P env s t) ∧
    ((0 ≤ probeAnswer0 env t ∧ 0 ≤ probeAnswer1 P env t ∧ 0 ≤ probeAnswer2 P env t ∧
        0 ≤ probeAnswer3 P env s t) →
      ∃ rest, probeCalls P env s t =
        [Call.sysfs_create_group, safetyOffCall P, armingCall P,
          defaultRateCall P s.frequency, Call.kzalloc] ++ rest) ∧
    ((∃ n, Call.pwmchip_add n ∈ probeCalls P env s t) → Call.kzalloc ∈ probeCalls P env s t) ∧
    blockWrites (probeCalls P env s t) = [] := by
  rw [probeCalls_eq]
  by_cases h0 : probeAnswer0 env t < 0
  · simp [h0, byteWrites, blockWrites, Call.isByteWrite, Call.isBlockWrite]
  by_cases h1 : probeAnswer1 P env t < 0
  · simp [h0, h1, byteWrites, blockWrites, Call.isByteWrite, Call.isBlockWrite, safetyOffCall,
      armingCall, defaultRateCall]
  by_cases h2 : probeAnswer2 P env t < 0
  · simp [h0, h1, h2, byteWrites, blockWrites, Call.isByteWrite, Call.isBlockWrite,
      safetyOffCall, armingCall, defaultRateCall]
  by_cases h3 : probeAnswer3 P env s t < 0
  · simp [h0, h1, h2, h3, byteWrites, blockWrites, Call.isByteWrite, Call.isBlockWrite,
      safetyOffCall, armingCall, defaultRateCall]
  · simp only [h0, h1, h2, h3, if_false, handleCalls]
    have g0 : 0 ≤ probeAnswer0 env t := by omega
    have g1 : 0 ≤ probeAnswer1 P env t := by omega
    have g2 : 0 ≤ probeAnswer2 P env t := by omega
    have g3 : 0 ≤ probeAnswer3 P env s t := by omega
    split_ifs <;>
      simp [g0, g1, g2, g3, h0, h1, h2, byteWrites, blockWrites, Call.isByteWrite,
        Call.isBlockWrite, safetyOffCall, armingCall, defaultRateCall]

/-- C5, evaluated at failing inputs. The text `65536` parses to 65536, which
is outside [0,1000], yet `frequency_store` returns the count 5, not `-EINVAL`,
and caches 0 with the flag raised; likewise `-65000` is accepted and caches
536. The range test reads the `u16` variable after the assignment. -/
theorem C5_frequency_store_accepts_out_of_range :
    kstrtoint_dec "65536" = (0, 65536) ∧ ¬ ((0 : Int) ≤ 65536 ∧ (65536 : Int) ≤ 1000) ∧
    (frequency_store kstrtoint_dec PwmState.init "65536" 5).1 = 5 ∧
    (frequency_store kstrtoint_dec PwmState.init "65536" 5).1 ≠ -EINVAL ∧
    (frequency_store kstrtoint_dec PwmState.init "65536" 5).2.frequency = 0 ∧
    (frequency_store kstrtoint_dec PwmState.init "65536" 5).2.frequency_updated = true ∧
    kstrtoint_dec "-65000" = (0, -65000) ∧
    (frequency_store kstrtoint_dec PwmState.init "-65000" 6).1 = 6 ∧
    (frequency_store kstrtoint_dec PwmState.init "-65000" 6).2.frequency = 536 := by
  decide

/-- C6. For every text that parses to `v` with `0 ≤ v ≤ 1000` and every prior
state and trace, `frequency_store` returns the count; the next
`rcio_pwm_update` (other operations than `frequency_store` and the update may
come between) issues exactly one byte write, to
(`PX4IO_PAGE_SETUP`, `PX4IO_P_SETUP_PWM_DEFAULTRATE`) with value `v`; after it
`frequency_updated` is false; and a later `rcio_pwm_update`, with no
`frequency_store` in between, issues no byte write. -/
theorem C6_accepted_frequency_pushed_once (K : Kstrtoint) (P : Protocol) (env : Env)
    (s : PwmState) (t : Trace) (buf : String) (count : Nat) (v : Int)
    (ops1 ops2 : List Op)
    (hparse : K buf = (0, v)) (h0 : 0 ≤ v) (h1 : v ≤ 1000)
    (hops1 : ∀ op ∈ ops1, op.isFrequencyStore = false ∧ op.isUpdate = false)
    (hops2 : ∀ op ∈ ops2, op.isFrequencyStore = false) :
    (frequency_store K s buf count).1 = (count : Int) ∧
    (∃ n : Nat, (n : Int) = v ∧
      byteWrites (updateCalls P env
          (run K P env ⟨s, t⟩ (Op.frequency_store buf count :: ops1)).st
          (run K P env ⟨s, t⟩ (Op.frequency_store buf count :: ops1)).trace) =
        [Call.register_set_byte P.PX4IO_PAGE_SETUP P.PX4IO_P_SETUP_PWM_DEFAULTRATE n]) ∧
    (run K P env ⟨s, t⟩
      (Op.frequency_store buf count :: ops1 ++ [Op.rcio_pwm_update])).st.frequency_updated
        = false ∧
    byteWrites (updateCalls P env
        (run K P env ⟨s, t⟩
          (Op.frequency_store buf count :: ops1 ++ [Op.rcio_pwm_update] ++ ops2)).st
        (run K P env ⟨s, t⟩
          (Op.frequency_store buf count :: ops1 ++ [Op.rcio_pwm_update] ++ ops2)).trace) = [] := by
  have hp : ¬ (K buf).1 < 0 := by simp [hparse]
  have hu : ((u16 v : Nat) : Int) = v := u16_of_range v h0 (by omega)
  have hst := frequency_store_parsed K s buf count hp
  rw [hparse] at hst
  have hle : ¬ 1000 < u16 v := by omega
  simp only [if_neg hle] at hst
  have hc1 := run_frequency K P env ops1
    (step K P env ⟨s, t⟩ (Op.frequency_store buf count)).2 hops1
  have hstep : (step K P env ⟨s, t⟩ (Op.frequency_store buf count)).2.st =
      { s with frequency := u16 v, frequency_updated := true } := by
    simp [step, hst]
  rw [hstep] at hc1
  have hflag2 : (run K P env ⟨s, t⟩
      (Op.frequency_store buf count :: ops1 ++ [Op.rcio_pwm_update])).st.frequency_updated
        = false := by
    rw [run_append]
    simp [run, step, rcio_pwm_update_state]
  refine ⟨by rw [hst], ⟨u16 v, hu, ?_⟩, hflag2, ?_⟩
  · rw [byteWrites_updateCalls, run_cons, hc1.1, hc1.2]
    rfl
  · rw [byteWrites_updateCalls, run_append, run_flag_false K P env ops2 _ hops2 hflag2]
    rfl

/-- Witness of C6: from the initial state, the text `400` is accepted; a
channel write and an arming later, the update pushes 400 once; after a further
attach and channel write the next update issues no byte write. -/
theorem C6_witness :
    (kstrtoint_dec "400" = (0, 400) ∧ (0 : Int) ≤ 400 ∧ (400 : Int) ≤ 1000) ∧
    ((frequency_store kstrtoint_dec PwmState.init "400" 3).1 = ((3 : Nat) : Int) ∧
    (∃ n : Nat, (n : Int) = 400 ∧
      byteWrites (updateCalls px4io envOk
          (run kstrtoint_dec px4io envOk ⟨PwmState.init, []⟩
            (Op.frequency_store "400" 3 ::
              [Op.channel_store "ch2" "1200" 4, Op.armed_store "1" 1])).st
          (run kstrtoint_dec px4io envOk ⟨PwmState.init, []⟩
            (Op.frequency_store "400" 3 ::
              [Op.channel_store "ch2" "1200" 4, Op.armed_store "1" 1])).trace) =
        [Call.register_set_byte px4io.PX4IO_PAGE_SETUP px4io.PX4IO_P_SETUP_PWM_DEFAULTRATE n]) ∧
    (run kstrtoint_dec px4io envOk ⟨PwmState.init, []⟩
      (Op.frequency_store "400" 3 ::
        [Op.channel_store "ch2" "1200" 4, Op.armed_store "1" 1] ++
          [Op.rcio_pwm_update])).st.frequency_updated = false ∧
    byteWrites (updateCalls px4io envOk
        (run kstrtoint_dec px4io envOk ⟨PwmState.init, []⟩
          (Op.frequency_store "400" 3 ::
            [Op.channel_store "ch2" "1200" 4, Op.armed_store "1" 1] ++
              [Op.rcio_pwm_update] ++ [Op.rcio_pwm_update, Op.channel_store "ch0" "7" 1])).st
        (run kstrtoint_dec px4io envOk ⟨PwmState.init, []⟩
          (Op.frequency_store "400" 3 ::
            [Op.channel_store "ch2" "1200" 4, Op.armed_store "1" 1] ++
              [Op.rcio_pwm_update] ++
                [Op.rcio_pwm_update, Op.channel_store "ch0" "7" 1])).trace) = []) :=
  ⟨⟨by decide, by decide, by decide⟩,
   C6_accepted_frequency_pushed_once kstrtoint_dec px4io envOk PwmState.init [] "400" 3 400
     [Op.channel_store "ch2" "1200" 4, Op.armed_store "1" 1]
     [Op.rcio_pwm_update, Op.channel_store "ch0" "7" 1]
     (by decide) (by decide) (by decide) (by decide) (by decide)⟩

/-- C7, evaluated at a failing input. From the configuration at module load,
`frequency_store` on the text `2000` returns `-EINVAL`, and the following
`rcio_pwm_update` nevertheless issues the default-rate write with the value
2000, which is outside [0,1000]. -/
theorem C7_rejected_frequency_reaches_update :
    kstrtoint_dec "2000" = (0, 2000) ∧
    (step kstrtoint_dec px4io envOk Sys.init (Op.frequency_store "2000" 4)).1 = -EINVAL ∧
    (run kstrtoint_dec px4io envOk Sys.init
      [Op.frequency_store "2000" 4, Op.rcio_pwm_update]).trace =
        [Call.register_set_byte px4io.PX4IO_PAGE_SETUP px4io.PX4IO_P_SETUP_PWM_DEFAULTRATE 2000] ∧
    ¬ (2000 ≤ 1000) := by
  decide

/-- C8. `rcio_pwm_update` returns a negative value exactly when `armed` is true
and the block write is answered negatively; when armed it returns the answer of
the block write it issued; when not armed it returns 1; and two environments
that answer the block write alike give the same return value, whatever each
answers to the default-rate write. -/
theorem C8_update_return_value (P : Protocol) (env : Env) (s : PwmState) (t : Trace) :
    ((rcio_pwm_update P env s t).1 < 0 ↔ s.armed = true ∧ blockAnswer P env s t < 0) ∧
    (s.armed = true →
      (rcio_pwm_update P env s t).1 = blockAnswer P env s t ∧
      blockWrites (updateCalls P env s t) = [blockCall P s]) ∧
    (s.armed = false →
      (rcio_pwm_update P env s t).1 = 1 ∧ 0 ≤ (rcio_pwm_update P env s t).1) ∧
    (∀ env2 : Env, blockAnswer P env2 s t = blockAnswer P env s t →
      (rcio_pwm_update P env2 s t).1 = (rcio_pwm_update P env s t).1) := by
  refine ⟨?_, ?_, ?_, ?_⟩
  · rw [rcio_pwm_update_ret]
    cases ha : s.armed <;> simp
  · intro ha
    rw [rcio_pwm_update_ret, blockWrites_updateCalls, ha]
    exact ⟨rfl, rfl⟩
  · intro ha
    rw [rcio_pwm_update_ret, ha]
    simp
  · intro env2 h
    rw [rcio_pwm_update_ret, rcio_pwm_update_ret, h]

/-- C9. Failed frequency push is dropped. From any state with
`frequency_updated` set, when the default-rate write of `rcio_pwm_update` is
answered negatively: the write was issued once and the failure logged; the flag
is false after the call; when armed, the block write of that same call is still
issued, after the failed write, and its answer is the value returned; and a
later `rcio_pwm_update`, with no `frequency_store` in between, issues no byte
write. -/
theorem C9_failed_push_is_dropped (K : Kstrtoint) (P : Protocol) (env : Env)
    (s : PwmState) (t : Trace) (ops : List Op)
    (hpend : s.frequency_updated = true) (hfail : pushAnswer P env s t < 0)
    (hops : ∀ op ∈ ops, op.isFrequencyStore = false) :
    (rcio_pwm_update P env s t).2.1.frequency_updated = false ∧
    byteWrites (updateCalls P env s t) = [defaultRateCall P s.frequency] ∧
    (s.armed = true →
      updateCalls P env s t =
        [defaultRateCall P s.frequency, Call.printk "KERN_INFO" "Frequency not set\n",
          blockCall P s] ∧
      (rcio_pwm_update P env s t).1 = blockAnswer P env s t) ∧
    (s.armed = false →
      updateCalls P env s t =
        [defaultRateCall P s.frequency, Call.printk "KERN_INFO" "Frequency not set\n"]) ∧
    byteWrites (updateCalls P env
        (run K P env ⟨s, t⟩ (Op.rcio_pwm_update :: ops)).st
        (run K P env ⟨s, t⟩ (Op.rcio_pwm_update :: ops)).trace) = [] := by
  have hfail2 : env t (defaultRateCall P s.frequency) < 0 := hfail
  have hflag : (step K P env ⟨s, t⟩ Op.rcio_pwm_update).2.st.frequency_updated = false := by
    simp [step, rcio_pwm_update_state]
  refine ⟨by rw [rcio_pwm_update_state], ?_, ?_, ?_, ?_⟩
  · rw [byteWrites_updateCalls, hpend]
    rfl
  · intro ha
    rw [updateCalls_eq, rcio_pwm_update_ret, ha]
    simp [pushCalls, hpend, hfail2]
  · intro ha
    rw [updateCalls_eq, ha]
    simp [pushCalls, hpend, hfail2]
  · rw [byteWrites_updateCalls, run_cons, run_flag_false K P env ops _ hops hflag]
    rfl

/-- Witness of C9: armed, a push of 400 pending, on a port whose writes all
fail with `-5`. -/
theorem C9_witness :
    (({ armedInit with frequency := 400, frequency_updated := true } : PwmState).frequency_updated
        = true ∧
      pushAnswer px4io envIoFail
        { armedInit with frequency := 400, frequency_updated := true } [] < 0) ∧
    ((rcio_pwm_update px4io envIoFail
        { armedInit with frequency := 400, frequency_updated := true } []).2.1.frequency_updated
          = false ∧
    byteWrites (updateCalls px4io envIoFail
        { armedInit with frequency := 400, frequency_updated := true } []) =
      [defaultRateCall px4io 400] ∧
    (armedInit.armed = true →
      updateCalls px4io envIoFail
          { armedInit with frequency := 400, frequency_updated := true } [] =
        [defaultRateCall px4io 400, Call.printk "KERN_INFO" "Frequency not set\n",
          blockCall px4io { armedInit with frequency := 400, frequency_updated := true }] ∧
      (rcio_pwm_update px4io envIoFail
          { armedInit with frequency := 400, frequency_updated := true } []).1 =
        blockAnswer px4io envIoFail
          { armedInit with frequency := 400, frequency_updated := true } []) ∧
    (armedInit.armed = false →
      updateCalls px4io envIoFail
          { armedInit with frequency := 400, frequency_updated := true } [] =
        [defaultRateCall px4io 400, Call.printk "KERN_INFO" "Frequency not set\n"]) ∧
    byteWrites (updateCalls px4io envIoFail
        (run kstrtoint_dec px4io envIoFail
          ⟨{ armedInit with frequency := 400, frequency_updated := true }, []⟩
          (Op.rcio_pwm_update :: [Op.channel_store "ch1" "900" 3, Op.rcio_pwm_update])).st
        (run kstrtoint_dec px4io envIoFail
          ⟨{ armedInit with frequency := 400, frequency_updated := true }, []⟩
          (Op.rcio_pwm_update ::
            [Op.channel_store "ch1" "900" 3, Op.rcio_pwm_update])).trace) = []) :=
  ⟨⟨rfl, by decide⟩,
   C9_failed_push_is_dropped kstrtoint_dec px4io envIoFail
     { armedInit with frequency := 400, frequency_updated := true } []
     [Op.channel_store "ch1" "900" 3, Op.rcio_pwm_update] rfl (by decide) (by decide)⟩

/-- C10, as amended. `frequency_store` raises `frequency_updated` whenever it
assigns `frequency`, and no other operation assigns it; and the flag is cleared
only by `rcio_pwm_update`, after the push has been attempted: if the flag is
true before an operation and false after it, the operation was an
`rcio_pwm_update`, and the first call it issued was the default-rate write with
the cached `frequency`. The write need not have succeeded. -/
theorem C10_flag_cleared_only_by_update (K : Kstrtoint) (P : Protocol) (env : Env)
    (c : Sys) (op : Op)
    (hbefore : c.st.frequency_updated = true)
    (hafter : (step K P env c op).2.st.frequency_updated = false) :
    (op = Op.rcio_pwm_update ∧
      (updateCalls P env c.st c.trace).head? = some (defaultRateCall P c.st.frequency) ∧
      byteWrites (updateCalls P env c.st c.trace) = [defaultRateCall P c.st.frequency]) ∧
    (∀ (c2 : Sys) (op2 : Op),
      (step K P env c2 op2).2.st.frequency ≠ c2.st.frequency →
        (∃ buf count, op2 = Op.frequency_store buf count) ∧
        (step K P env c2 op2).2.st.frequency_updated = true) := by
  constructor
  · have hop : op = Op.rcio_pwm_update := by
      cases op with
      | rcio_pwm_update => rfl
      | frequency_store b n =>
        exfalso
        simp only [step, frequency_store] at hafter
        split_ifs at hafter
        all_goals simp_all
      | channel_store a b n =>
        rw [(step_frequency K P env c (Op.channel_store a b n) rfl rfl).2, hbefore] at hafter
        exact Bool.noConfusion hafter
      | armed_store b n =>
        rw [(step_frequency K P env c (Op.armed_store b n) rfl rfl).2, hbefore] at hafter
        exact Bool.noConfusion hafter
      | frequency_show =>
        rw [(step_frequency K P env c Op.frequency_show rfl rfl).2, hbefore] at hafter
        exact Bool.noConfusion hafter
      | armed_show =>
        rw [(step_frequency K P env c Op.armed_show rfl rfl).2, hbefore] at hafter
        exact Bool.noConfusion hafter
      | rcio_pwm_probe =>
        rw [(step_frequency K P env c Op.rcio_pwm_probe rfl rfl).2, hbefore] at hafter
        exact Bool.noConfusion hafter
    refine ⟨hop, ?_, ?_⟩
    · rw [updateCalls_eq]
      simp [pushCalls, hbefore]
    · rw [byteWrites_updateCalls, hbefore]
      rfl
  · intro c2 op2 hne
    cases op2 with
    | frequency_store b n =>
      refine ⟨⟨b, n, rfl⟩, ?_⟩
      simp only [step, frequency_store] at hne ⊢
      split_ifs at hne ⊢ <;> simp_all
    | rcio_pwm_update =>
      exact absurd (by simp [step, rcio_pwm_update_state]) hne
    | channel_store a b n =>
      exact absurd (step_frequency K P env c2 (Op.channel_store a b n) rfl rfl).1 hne
    | armed_store b n =>
      exact absurd (step_frequency K P env c2 (Op.armed_store b n) rfl rfl).1 hne
    | frequency_show =>
      exact absurd (step_frequency K P env c2 Op.frequency_show rfl rfl).1 hne
    | armed_show =>
      exact absurd (step_frequency K P env c2 Op.armed_show rfl rfl).1 hne
    | rcio_pwm_probe =>
      exact absurd (step_frequency K P env c2 Op.rcio_pwm_probe rfl rfl).1 hne

/-- Witness of C10: a pending push of 400 at an update on a working port. -/
theorem C10_witness :
    ((⟨{ PwmState.init with frequency := 400, frequency_updated := true }, []⟩ :
        Sys).st.frequency_updated = true ∧
      (step kstrtoint_dec px4io envOk
        ⟨{ PwmState.init with frequency := 400, frequency_updated := true }, []⟩
        Op.rcio_pwm_update).2.st.frequency_updated = false) ∧
    (Op.rcio_pwm_update = Op.rcio_pwm_update ∧
      (updateCalls px4io envOk
          { PwmState.init with frequency := 400, frequency_updated := true } []).head? =
        some (defaultRateCall px4io 400) ∧
      byteWrites (updateCalls px4io envOk
          { PwmState.init with frequency := 400, frequency_updated := true } []) =
        [defaultRateCall px4io 400]) :=
  ⟨⟨rfl, by decide⟩,
   (C10_flag_cleared_only_by_update kstrtoint_dec px4io envOk
     ⟨{ PwmState.init with frequency := 400, frequency_updated := true }, []⟩
     Op.rcio_pwm_update rfl (by decide)).1⟩

/-- Counterexample to C10 as stated (the flag is cleared only after a successful
push): with a push of 400 pending and a port whose writes fail with `-5`, the
flag is true before `rcio_pwm_update` and false after it, although the
default-rate write was answered `-5`. -/
theorem C10_counterexample :
    (⟨{ PwmState.init with frequency := 400, frequency_updated := true }, []⟩ :
        Sys).st.frequency_updated = true ∧
    (step kstrtoint_dec px4io envIoFail
      ⟨{ PwmState.init with frequency := 400, frequency_updated := true }, []⟩
      Op.rcio_pwm_update).2.st.frequency_updated = false ∧
    pushAnswer px4io envIoFail
      { PwmState.init with frequency := 400, frequency_updated := true } [] = -5 ∧
    ¬ (0 ≤ pushAnswer px4io envIoFail
      { PwmState.init with frequency := 400, frequency_updated := true } []) := by
  decide

/-- C11. One `rcio_pwm_update` issues at most one byte write, which is the
default-rate write with the cached `frequency`, and at most one block write;
its calls split into a first part that holds no block write and a second part
that holds no byte write, so a byte write comes before a block write; and a
block write it issues is addressed to `PX4IO_PAGE_DIRECT_PWM`, offset 0, count
`RCIO_PWM_MAX_CHANNELS` = 8, with all 8 slots as data, slot `j` at position
`j`. -/
theorem C11_update_at_most_one_write_each (P : Protocol) (env : Env) (s : PwmState)
    (t : Trace) :
    (byteWrites (updateCalls P env s t)).length ≤ 1 ∧
    (∀ c ∈ byteWrites (updateCalls P env s t),
      c = Call.register_set_byte P.PX4IO_PAGE_SETUP P.PX4IO_P_SETUP_PWM_DEFAULTRATE
        s.frequency) ∧
    (blockWrites (updateCalls P env s t)).length ≤ 1 ∧
    (∃ first second : List Call,
      updateCalls P env s t = first ++ second ∧
      blockWrites first = [] ∧ byteWrites second = []) ∧
    (∀ page offset data count,
      Call.register_set page offset data count ∈ updateCalls P env s t →
        page = P.PX4IO_PAGE_DIRECT_PWM ∧ offset = 0 ∧ count = 8 ∧
        RCIO_PWM_MAX_CHANNELS = 8 ∧ data.length = 8 ∧
        ∀ j : Fin 8, data[j.val]? = some (s.values j)) := by
  refine ⟨?_, ?_, ?_, ?_, ?_⟩
  · rw [byteWrites_updateCalls]
    split_ifs <;> simp
  · intro c hc
    rw [byteWrites_updateCalls] at hc
    split_ifs at hc
    · simpa [defaultRateCall] using hc
    · simp at hc
  · rw [blockWrites_updateCalls]
    split_ifs <;> simp
  · refine ⟨pushCalls P env s t, if s.armed then [blockCall P s] else [],
      updateCalls_eq P env s t, blockWrites_pushCalls P env s t, ?_⟩
    split_ifs <;> simp [byteWrites, blockCall, Call.isByteWrite]
  · intro page offset data count hm
    have hb : Call.register_set page offset data count ∈
        blockWrites (updateCalls P env s t) := by
      simp [blockWrites, hm, Call.isBlockWrite]
    rw [blockWrites_updateCalls] at hb
    split_ifs at hb
    · simp only [List.mem_singleton, blockCall, Call.register_set.injEq] at hb
      obtain ⟨h1, h2, h3, h4⟩ := hb
      subst h1 h2 h3 h4
      refine ⟨rfl, rfl, rfl, rfl, rfl, ?_⟩
      intro j
      fin_cases j <;> rfl
    · simp at hb

/-- C12. Idempotence of the update. From any state with `armed` true, whatever
the environment answers (a failing first call included), two consecutive
`rcio_pwm_update` calls each issue exactly one block write, and the two are the
same call: page `PX4IO_PAGE_DIRECT_PWM`, offset 0, the 8 cached values,
count 8. -/
theorem C12_update_twice_same_block (P : Protocol) (env : Env) (s : PwmState) (t : Trace)
    (harmed : s.armed = true) :
    blockWrites (updateCalls P env s t) =
      [Call.register_set P.PX4IO_PAGE_DIRECT_PWM 0 s.block 8] ∧
    blockWrites (updateCalls P env (rcio_pwm_update P env s t).2.1
        (rcio_pwm_update P env s t).2.2) =
      [Call.register_set P.PX4IO_PAGE_DIRECT_PWM 0 s.block 8] ∧
    blockWrites (updateCalls P env (rcio_pwm_update P env s t).2.1
        (rcio_pwm_update P env s t).2.2) =
      blockWrites (updateCalls P env s t) := by
  have h1 : blockWrites (updateCalls P env s t) =
      [Call.register_set P.PX4IO_PAGE_DIRECT_PWM 0 s.block 8] := by
    rw [blockWrites_updateCalls, harmed]
    rfl
  have h2 : blockWrites (updateCalls P env (rcio_pwm_update P env s t).2.1
        (rcio_pwm_update P env s t).2.2) =
      [Call.register_set P.PX4IO_PAGE_DIRECT_PWM 0 s.block 8] := by
    rw [blockWrites_updateCalls, rcio_pwm_update_state]
    simp only [harmed, if_true]
    rfl
  exact ⟨h1, h2, h2.trans h1.symm⟩

/-- Witness of C12: armed, channel 0 at 1500, a push pending, on a port whose
writes all fail: both updates issue the block `[1500,0,0,0,0,0,0,0]`. -/
theorem C12_witness :
    (frequency_store kstrtoint_dec
        (channel_store kstrtoint_dec armedInit "ch0" "1500" 4).2 "400" 3).2.armed = true ∧
    blockWrites (updateCalls px4io envIoFail
        (rcio_pwm_update px4io envIoFail
          (frequency_store kstrtoint_dec
            (channel_store kstrtoint_dec armedInit "ch0" "1500" 4).2 "400" 3).2 []).2.1
        (rcio_pwm_update px4io envIoFail
          (frequency_store kstrtoint_dec
            (channel_store kstrtoint_dec armedInit "ch0" "1500" 4).2 "400" 3).2 []).2.2) =
      blockWrites (updateCalls px4io envIoFail
        (frequency_store kstrtoint_dec
          (channel_store kstrtoint_dec armedInit "ch0" "1500" 4).2 "400" 3).2 []) ∧
    blockWrites (updateCalls px4io envIoFail
        (frequency_store kstrtoint_dec
          (channel_store kstrtoint_dec armedInit "ch0" "1500" 4).2 "400" 3).2 []) =
      [Call.register_set 54 0 [1500, 0, 0, 0, 0, 0, 0, 0] 8] :=
  ⟨by decide,
   (C12_update_twice_same_block px4io envIoFail
     (frequency_store kstrtoint_dec
       (channel_store kstrtoint_dec armedInit "ch0" "1500" 4).2 "400" 3).2 []
     (by decide)).2.2,
   by decide⟩

/-- C13. For every text that parses to `v`, `armed_store` returns the count
and leaves `armed` equal to `v > 0` (so zero and every negative value disarm),
the other cached variables as they were; `armed_show` then writes `1` and a
newline when `v > 0`, `0` and a newline otherwise, returns the 2 characters
written, and changes nothing. -/
theorem C13_armed_store_then_show (K : Kstrtoint) (P : Protocol) (env : Env) (s : PwmState)
    (t : Trace) (buf : String) (count : Nat) (v : Int) (hparse : K buf = (0, v)) :
    (armed_store K s buf count).1 = (count : Int) ∧
    (armed_store K s buf count).2.armed = decide (v > 0) ∧
    (v ≤ 0 → (armed_store K s buf count).2.armed = false) ∧
    ((armed_store K s buf count).2.values = s.values ∧
      (armed_store K s buf count).2.frequency = s.frequency ∧
      (armed_store K s buf count).2.frequency_updated = s.frequency_updated) ∧
    (armed_show (armed_store K s buf count).2).2 = (if v > 0 then "1\n" else "0\n") ∧
    (armed_show (armed_store K s buf count).2).1 = 2 ∧
    (step K P env ⟨(armed_store K s buf count).2, t⟩ Op.armed_show).2.st =
      (armed_store K s buf count).2 ∧
    (step K P env ⟨(armed_store K s buf count).2, t⟩ Op.armed_show).2.trace = t := by
  have hp : ¬ (K buf).1 < 0 := by simp [hparse]
  have hst := armed_store_parsed K s buf count hp
  rw [hparse] at hst
  have hshow := armed_show_text (armed_store K s buf count).2
  rw [hst] at hshow ⊢
  refine ⟨rfl, rfl, fun h => by simp; omega, ⟨rfl, rfl, rfl⟩, ?_, hshow.2, rfl, rfl⟩
  rw [hshow.1]
  by_cases hv : v > 0 <;> simp [hv]

/-- Witness of C13: the text `-3` disarms an armed state and reads back `0`. -/
theorem C13_witness :
    kstrtoint_dec "-3" = (0, -3) ∧
    (armed_store kstrtoint_dec armedInit "-3" 2).2.armed = false ∧
    (armed_show (armed_store kstrtoint_dec armedInit "-3" 2).2).2 = "0\n" :=
  ⟨by decide,
   (C13_armed_store_then_show kstrtoint_dec px4io envOk armedInit [] "-3" 2 (-3)
     (by decide)).2.2.1 (by decide),
   by decide⟩

/-- C14. Atomicity on parse failure. When `kstrtoint` answers a negative code
for the text, each of `channel_store` (on any attribute name),
`frequency_store` and `armed_store` returns that code and leaves the whole
cached state (the 8 slots, `frequency`, `frequency_updated`, `armed`) as it
was. -/
theorem C14_parse_failure_changes_nothing (K : Kstrtoint) (s : PwmState)
    (attr_name buf : String) (count : Nat) (hfail : (K buf).1 < 0) :
    channel_store K s attr_name buf count = ((K buf).1, s) ∧
    frequency_store K s buf count = ((K buf).1, s) ∧
    armed_store K s buf count = ((K buf).1, s) ∧
    (channel_store K s attr_name buf count).1 < 0 ∧
    (frequency_store K s buf count).1 < 0 ∧
    (armed_store K s buf count).1 < 0 := by
  have h1 : channel_store K s attr_name buf count = ((K buf).1, s) := by
    simp only [channel_store, if_pos hfail]
  have h2 : frequency_store K s buf count = ((K buf).1, s) := by
    simp only [frequency_store, if_pos hfail]
  have h3 : armed_store K s buf count = ((K buf).1, s) := by
    simp only [armed_store, if_pos hfail]
  refine ⟨h1, h2, h3, ?_, ?_, ?_⟩
  · rw [h1]; exact hfail
  · rw [h2]; exact hfail
  · rw [h3]; exact hfail

/-- Witness of C14: the text `12a` is refused with `-EINVAL` by the three
handlers, on an armed state. -/
theorem C14_witness :
    (kstrtoint_dec "12a").1 < 0 ∧
    channel_store kstrtoint_dec armedInit "ch3" "12a" 3 = (-EINVAL, armedInit) ∧
    frequency_store kstrtoint_dec armedInit "12a" 3 = (-EINVAL, armedInit) ∧
    armed_store kstrtoint_dec armedInit "12a" 3 = (-EINVAL, armedInit) :=
  ⟨by decide,
   (C14_parse_failure_changes_nothing kstrtoint_dec armedInit "ch3" "12a" 3 (by decide)).1,
   (C14_parse_failure_changes_nothing kstrtoint_dec armedInit "ch3" "12a" 3 (by decide)).2.1,
   (C14_parse_failure_changes_nothing kstrtoint_dec armedInit "ch3" "12a" 3
     (by decide)).2.2.1⟩

/-- C15, as amended. `frequency_store` assigns before it validates: for every
text that parses to `v`, whether the call then returns the count or `-EINVAL`,
afterwards `frequency_updated` is set and `frequency` holds `v mod 65536`
(which is `v` when `0 ≤ v ≤ 65535`); `frequency_show` writes that number in
decimal and a newline. The slots and `armed` are as they were. -/
theorem C15_frequency_store_assigns_first (K : Kstrtoint) (s : PwmState) (buf : String)
    (count : Nat) (v : Int) (hparse : K buf = (0, v)) :
    ((frequency_store K s buf count).1 = (count : Int) ∨
      (frequency_store K s buf count).1 = -EINVAL) ∧
    (frequency_store K s buf count).2.frequency_updated = true ∧
    (((frequency_store K s buf count).2.frequency : Nat) : Int) = v % 65536 ∧
    (0 ≤ v → v ≤ 65535 → (((frequency_store K s buf count).2.frequency : Nat) : Int) = v) ∧
    (frequency_show (frequency_store K s buf count).2).2 = toString (u16 v) ++ "\n" ∧
    (frequency_store K s buf count).2.values = s.values ∧
    (frequency_store K s buf count).2.armed = s.armed := by
  have hp : ¬ (K buf).1 < 0 := by simp [hparse]
  rw [frequency_store_parsed K s buf count hp, hparse]
  refine ⟨?_, rfl, u16_eq_emod v, u16_of_range v, rfl, rfl, rfl⟩
  by_cases h : 1000 < u16 v
  · right; simp [h]
  · left; simp [h]

/-- Witness of C15: the text `2000` is rejected, yet the flag is set and 2000
is read back. -/
theorem C15_witness :
    kstrtoint_dec "2000" = (0, 2000) ∧
    (frequency_store kstrtoint_dec PwmState.init "2000" 4).1 = -EINVAL ∧
    (frequency_store kstrtoint_dec PwmState.init "2000" 4).2.frequency_updated = true ∧
    (frequency_show (frequency_store kstrtoint_dec PwmState.init "2000" 4).2).2 = "2000\n" :=
  ⟨by decide, by decide,
   (C15_frequency_store_assigns_first kstrtoint_dec PwmState.init "2000" 4 2000
     (by decide)).2.1,
   by decide⟩

/-- Counterexample to C15 as stated (`frequency` holds `v` for every parsed
`v`): the text `70000` parses to 70000, after which `frequency` is 4464 and
`frequency_show` writes `4464`; the text `-1` leaves 65535. -/
theorem C15_counterexample :
    kstrtoint_dec "70000" = (0, 70000) ∧
    (frequency_store kstrtoint_dec PwmState.init "70000" 5).2.frequency = 4464 ∧
    (((frequency_store kstrtoint_dec PwmState.init "70000" 5).2.frequency : Nat) : Int)
      ≠ 70000 ∧
    (frequency_show (frequency_store kstrtoint_dec PwmState.init "70000" 5).2).2 = "4464\n" ∧
    kstrtoint_dec "-1" = (0, -1) ∧
    (frequency_store kstrtoint_dec PwmState.init "-1" 2).2.frequency = 65535 := by
  decide

/-- C16, as amended. `rcio_pwm_probe` assigns none of the cached variables:
for every prior state, environment and trace, the state after the call is the
state before it. The values `frequency` 50, `armed` false, all 8 slots 0 (and
no push pending) are the static initialisers, so they are what an attach from
the state at module load leaves. -/
theorem C16_probe_keeps_cached_state (P : Protocol) (env : Env) (s : PwmState) (t : Trace) :
    (rcio_pwm_probe P env s t).2.1 = s ∧
    ((rcio_pwm_probe P env PwmState.init t).2.1.frequency = 50 ∧
      (rcio_pwm_probe P env PwmState.init t).2.1.armed = false ∧
      (rcio_pwm_probe P env PwmState.init t).2.1.frequency_updated = false ∧
      ∀ j : Fin 8, (rcio_pwm_probe P env PwmState.init t).2.1.values j = 0) := by
  refine ⟨rcio_pwm_probe_state P env s t, ?_⟩
  rw [rcio_pwm_probe_state]
  exact ⟨rfl, rfl, rfl, fun _ => rfl⟩

/-- Counterexample to C16 as stated (attach resets the cache): from a state
left armed with channel 0 at 1500 and `frequency` 400, a successful
`rcio_pwm_probe` returns 0 and leaves `armed` true, slot 0 at 1500 and
`frequency` 400, which it also writes to the default-rate register. -/
theorem C16_counterexample :
    (rcio_pwm_probe px4io envOk
      (frequency_store kstrtoint_dec
        (channel_store kstrtoint_dec armedInit "ch0" "1500" 4).2 "400" 3).2 []).1 = 0 ∧
    (rcio_pwm_probe px4io envOk
      (frequency_store kstrtoint_dec
        (channel_store kstrtoint_dec armedInit "ch0" "1500" 4).2 "400" 3).2 []).2.1.armed
          = true ∧
    (rcio_pwm_probe px4io envOk
      (frequency_store kstrtoint_dec
        (channel_store kstrtoint_dec armedInit "ch0" "1500" 4).2 "400" 3).2 []).2.1.values 0
          = 1500 ∧
    (rcio_pwm_probe px4io envOk
      (frequency_store kstrtoint_dec
        (channel_store kstrtoint_dec armedInit "ch0" "1500" 4).2 "400" 3).2 []).2.1.frequency
          = 400 ∧
    byteWrites (probeCalls px4io envOk
      (frequency_store kstrtoint_dec
        (channel_store kstrtoint_dec armedInit "ch0" "1500" 4).2 "400" 3).2 []) =
      [Call.register_set_byte 50 12 22027, Call.register_set_byte 50 1 35,
        Call.register_set_byte 50 3 400] := by
  decide

/-- C17. Exact acceptance condition of `frequency_store`. For every text that
parses to `v`: the call returns the count exactly when `v mod 65536 ≤ 1000`
and `-EINVAL` otherwise; the stored `frequency` is never negative, so the test
`frequency < 0` never holds; the value cached is `v mod 65536`; and that is
the value the next `rcio_pwm_update` writes to the default-rate register. -/
theorem C17_frequency_store_acceptance (K : Kstrtoint) (P : Protocol) (env : Env)
    (s : PwmState) (t : Trace) (buf : String) (count : Nat) (v : Int)
    (hparse : K buf = (0, v)) :
    ((frequency_store K s buf count).1 = (count : Int) ↔ v % 65536 ≤ 1000) ∧
    (1000 < v % 65536 → (frequency_store K s buf count).1 = -EINVAL) ∧
    ¬ ((((frequency_store K s buf count).2.frequency : Nat) : Int) < 0) ∧
    (((frequency_store K s buf count).2.frequency : Nat) : Int) = v % 65536 ∧
    (frequency_store K s buf count).2.frequency_updated = true ∧
    (∃ n : Nat, (n : Int) = v % 65536 ∧
      byteWrites (updateCalls P env (frequency_store K s buf count).2 t) =
        [Call.register_set_byte P.PX4IO_PAGE_SETUP P.PX4IO_P_SETUP_PWM_DEFAULTRATE n]) := by
  have hp : ¬ (K buf).1 < 0 := by simp [hparse]
  have hu : ((u16 v : Nat) : Int) = v % 65536 := u16_eq_emod v
  rw [frequency_store_parsed K s buf count hp, hparse]
  refine ⟨?_, ?_, by simp, hu, rfl, ⟨u16 v, hu, ?_⟩⟩
  · by_cases h : 1000 < u16 v
    · simp only [h, if_true, EINVAL]
      constructor
      · intro hc; omega
      · intro hc; omega
    · simp only [h, if_false, true_iff]
      omega
  · intro h
    have h2 : 1000 < u16 v := by omega
    simp [h2]
  · rw [byteWrites_updateCalls]
    rfl

/-- Witness of C17: the texts `65536` and `-65536` are accepted and cache 0. -/
theorem C17_witness :
    (kstrtoint_dec "65536" = (0, 65536) ∧ kstrtoint_dec "-65536" = (0, -65536)) ∧
    ((frequency_store kstrtoint_dec PwmState.init "65536" 5).1 = ((5 : Nat) : Int) ↔
      (65536 : Int) % 65536 ≤ 1000) ∧
    (frequency_store kstrtoint_dec PwmState.init "65536" 5).1 = 5 ∧
    (frequency_store kstrtoint_dec PwmState.init "65536" 5).2.frequency = 0 ∧
    (frequency_store kstrtoint_dec PwmState.init "-65536" 6).1 = 6 ∧
    (frequency_store kstrtoint_dec PwmState.init "-65536" 6).2.frequency = 0 :=
  ⟨⟨by decide, by decide⟩,
   (C17_frequency_store_acceptance kstrtoint_dec px4io envOk PwmState.init [] "65536" 5 65536
     (by decide)).1,
   by decide, by decide, by decide, by decide⟩

/-- C18. Channel values are stored modulo `2^16` and never rejected. For every
text that parses to `v` and every channel `i` of 0..7, `channel_store` on the
attribute of channel `i` returns the count and sets slot `i` to `v mod 65536`,
leaving the other 7 slots, `frequency`, `frequency_updated` and `armed` as
they were; on an attribute name that is none of `ch0` to `ch7` it changes
nothing and still returns the count. -/
theorem C18_channel_store_modulo (K : Kstrtoint) (s : PwmState) (i : Fin 8)
    (attr_name buf : String) (count : Nat) (v : Int) (hparse : K buf = (0, v)) :
    (channel_store K s (chName i) buf count).1 = (count : Int) ∧
    (((channel_store K s (chName i) buf count).2.values i : Nat) : Int) = v % 65536 ∧
    (∀ j : Fin 8, j ≠ i → (channel_store K s (chName i) buf count).2.values j = s.values j) ∧
    (channel_store K s (chName i) buf count).2.frequency = s.frequency ∧
    (channel_store K s (chName i) buf count).2.frequency_updated = s.frequency_updated ∧
    (channel_store K s (chName i) buf count).2.armed = s.armed ∧
    ((∀ k : Fin 8, attr_name ≠ chName k) →
      channel_store K s attr_name buf count = ((count : Int), s)) := by
  have hp : ¬ (K buf).1 < 0 := by simp [hparse]
  rw [channel_store_chName K s i buf count hp, hparse]
  refine ⟨rfl, ?_, ?_, rfl, rfl, rfl, ?_⟩
  · simp [u16_eq_emod]
  · intro j hj
    simp [Function.update, hj]
  · intro hk
    have h0 := hk 0
    have h1 := hk 1
    have h2 := hk 2
    have h3 := hk 3
    have h4 := hk 4
    have h5 := hk 5
    have h6 := hk 6
    have h7 := hk 7
    simp only [chName] at h0 h1 h2 h3 h4 h5 h6 h7
    simp only [channel_store, if_neg hp, if_neg h0, if_neg h1, if_neg h2, if_neg h3,
      if_neg h4, if_neg h5, if_neg h6, if_neg h7]

/-- Witness of C18: the text `-7` on `ch3` stores 65529 and returns the count;
on the attribute name `ch8` nothing is stored. -/
theorem C18_witness :
    kstrtoint_dec "-7" = (0, -7) ∧
    (channel_store kstrtoint_dec armedInit (chName 3) "-7" 2).1 = ((2 : Nat) : Int) ∧
    (((channel_store kstrtoint_dec armedInit (chName 3) "-7" 2).2.values 3 : Nat) : Int) =
      (-7 : Int) % 65536 ∧
    (channel_store kstrtoint_dec armedInit (chName 3) "-7" 2).2.values 3 = 65529 ∧
    channel_store kstrtoint_dec armedInit "ch8" "-7" 2 = (((2 : Nat) : Int), armedInit) :=
  ⟨by decide,
   (C18_channel_store_modulo kstrtoint_dec armedInit 3 "ch8" "-7" 2 (-7) (by decide)).1,
   (C18_channel_store_modulo kstrtoint_dec armedInit 3 "ch8" "-7" 2 (-7) (by decide)).2.1,
   by decide,
   (C18_channel_store_modulo kstrtoint_dec armedInit 3 "ch8" "-7" 2 (-7)
     (by decide)).2.2.2.2.2.2 (by decide)⟩

/-- C19. Frame of the update. Whatever the state, the environment and the
trace, `rcio_pwm_update` leaves the 8 slots, `frequency` and `armed` as they
were; the only variable it can change is `frequency_updated`, which is false
after the call. -/
theorem C19_update_frame (P : Protocol) (env : Env) (s : PwmState) (t : Trace) :
    (rcio_pwm_update P env s t).2.1.values = s.values ∧
    (rcio_pwm_update P env s t).2.1.frequency = s.frequency ∧
    (rcio_pwm_update P env s t).2.1.armed = s.armed ∧
    (rcio_pwm_update P env s t).2.1.frequency_updated = false ∧
    (rcio_pwm_update P env s t).2.1 = { s with frequency_updated := false } := by
  rw [rcio_pwm_update_state]
  exact ⟨rfl, rfl, rfl, rfl, rfl⟩

end RcioPwm
